import Mathlib

/-!
# lloro backend: the agent bridge (`src/backend/main.go`)

A shallow embedding of `AgentWrapper` and its methods, and the properties of the
protocol bridge proved about it.

Modelling conventions.

* Go strings are Lean `String`s (captured output is taken to be valid UTF-8).
* A value decoded by `encoding/json` into `interface{}` is a `JSON`; a
  `map[string]interface{}` is a `Msg`, an association list read with `Msg.get`
  (`v, ok := m[k]`).
* The agent process is an environment.  Its standard output is the finite list of lines it
  still produces (`Reader`); reading past the last line is `io.EOF`.  Its standard input is
  the list of outcomes of the successive writes (`Writer`); writing past the end fails
  (closed pipe).
* Every method returns the new `AgentWrapper`, its Go return values and the list of
  external actions (`Effect`) it performed, in order.
* The mutex is not modelled: every method runs to completion on its own.
-/

namespace Lloro

/-! ## JSON values and messages -/

/-- A JSON value as `encoding/json` stores it in an `interface{}`: `nil`, `bool`, number
(`mantissa * 10 ^ exponent`), `string`, `[]interface{}` or `map[string]interface{}`. -/
inductive JSON where
  | null
  | bool (b : Bool)
  | num (mantissa : Int) (exponent : Int)
  | str (s : String)
  | arr (xs : List JSON)
  | obj (kvs : List (String × JSON))

/-- The Go type `map[string]interface{}` (a `nil` map is the empty list). -/
abbrev Msg := List (String × JSON)

/-- The map index expression `v, ok := m[k]`: `none` when `ok` is false. -/
def Msg.get (m : Msg) (k : String) : Option JSON :=
  List.lookup k m

/-- The single-value test `_, has := m[k]`. -/
def Msg.has (m : Msg) (k : String) : Bool :=
  (m.get k).isSome

/-- The type assertion `v.(string)` on the result of a map index. -/
def asString : Option JSON → Option String
  | some (.str s) => some s
  | _ => none

/-- The type assertion `v.(map[string]interface{})` on the result of a map index. -/
def asMap : Option JSON → Option Msg
  | some (.obj kvs) => some kvs
  | _ => none

/-! ## The message channel -/

/-- What one `ReadBytes('\n')` followed by `json.Unmarshal` meets on the process's output. -/
inductive Line where
  /-- A line that `json.Unmarshal` decodes into this map. -/
  | msg (m : Msg)
  /-- A line that `json.Unmarshal` rejects. -/
  | malformed
  /-- The read itself fails with an error other than `io.EOF`. -/
  | ioError

/-- The lines still to come on the process's standard output (`a.reader`); the empty list
is end-of-input. -/
abbrev Reader := List Line

/-- The outcomes of the successive writes to the process's standard input (`a.stdin`);
`true` is a successful write, and a write past the end of the list fails. -/
abbrev Writer := List Bool

/-- The errors `readJSON` returns. -/
inductive ReadError where
  /-- The value `io.EOF`. -/
  | EOF
  /-- Any other error of `ReadBytes`. -/
  | io
  /-- An error of `json.Unmarshal`. -/
  | unmarshal
  deriving DecidableEq

/-- What `readJSON` returns for the next line (`none`: the output is at end-of-input). -/
def decodeLine : Option Line → Except ReadError Msg
  | none => .error .EOF
  | some .ioError => .error .io
  | some .malformed => .error .unmarshal
  | some (.msg m) => .ok m

/-- `AgentWrapper.readJSON`: read one line from the reader and unmarshal it. -/
def readJSON (r : Reader) : Except ReadError Msg × Reader :=
  (decodeLine r.head?, r.tail)

/-- `AgentWrapper.sendJSON`: marshal (never fails on the maps this program builds) and
write one line; returns whether the write succeeded and the remaining writer. -/
def sendJSON (w : Writer) : Bool × Writer :=
  (w.head?.getD false, w.tail)

/-! ## The bridge state -/

/-- The Go type `os.Process`, identified by its process id. -/
structure Process where
  Pid : Nat
  deriving DecidableEq

/-- The Go type `exec.Cmd`: the command line and the process, `none` until `Start`
succeeds. -/
structure Cmd where
  Args : List String
  Process : Option Process
  deriving DecidableEq

/-- The struct `AgentWrapper` (`stdout` is only ever used through `reader`). -/
structure AgentWrapper where
  cmd : Option Cmd
  stdin : Writer
  reader : Reader
  model : String
  reqID : Int
  sessionID : String
  useACP : Bool

/-- An external action of the bridge. -/
inductive Effect where
  /-- The call `cmd.Process.Kill()`. -/
  | kill (pid : Nat)
  /-- The call `cmd.Wait()`. -/
  | wait (pid : Nat)
  /-- The call `cmd.Start()` on a command with these arguments. -/
  | spawn (args : List String)
  /-- The call `sendJSON(v)`. -/
  | send (v : JSON)
  /-- The call `cmd.Run()` on a command with these arguments. -/
  | run (args : List String)

/-- `NewAgentWrapper`. -/
def NewAgentWrapper : AgentWrapper :=
  { cmd := none, stdin := [], reader := [], model := "", reqID := 0, sessionID := "",
    useACP := true }

/-! ## ChatACP -/

/-- The errors `Chat` returns. -/
inductive ChatError where
  /-- The error `"failed to send prompt: %w"`. -/
  | sendFailed
  /-- The error `"failed to read response: %w"`. -/
  | readFailed (e : ReadError)
  /-- The error `"agent error: %v"` with the payload of the `error` field. -/
  | agent (errObj : JSON)
  /-- The error `"gemini failed: %w - %s"` with the captured standard error. -/
  | geminiFailed (stderr : String)

/-- The `session/prompt` request built by `ChatACP`. -/
def promptReq (reqID : Int) (sessionID prompt : String) : JSON :=
  .obj [("jsonrpc", .str "2.0"), ("id", .num reqID 0), ("method", .str "session/prompt"),
    ("params", .obj [("sessionId", .str sessionID),
      ("prompt", .arr [.obj [("type", .str "text"), ("text", .str prompt)]])])]

/-- The nested type assertions of the `session/update` branch: the text that
`responseText.WriteString` receives, `none` when nothing is written. -/
def chunkText (resp : Msg) : Option String := do
  let params ← asMap (resp.get "params")
  let update ← asMap (params.get "update")
  let sessionUpdate ← asString (update.get "sessionUpdate")
  if sessionUpdate = "agent_message_chunk" then
    let content ← asMap (update.get "content")
    asString (content.get "text")
  else
    none

/-- The read loop of `ChatACP`, started with the text aggregated so far; returns the Go
return values and the reader left behind.  Each iteration takes the result of `readJSON`
(`loop_readJSON` below); on the empty reader that result is `io.EOF`, the `break`. -/
def ChatACP.loop : Reader → String → (String × Option ChatError) × Reader
  | [], responseText => ((responseText, none), [])
  | l :: rest, responseText =>
    match decodeLine (some l) with
    | .error err =>
      if err = .EOF then ((responseText, none), rest)
      else (("", some (.readFailed err)), rest)
    | .ok resp =>
      if asString (resp.get "method") = some "session/update" then
        ChatACP.loop rest (responseText ++ (chunkText resp).getD "")
      else if resp.has "result" then
        ((responseText, none), rest)
      else
        match resp.get "error" with
        | some errObj => (("", some (.agent errObj)), rest)
        | none => ChatACP.loop rest responseText

/-- The result of a chat method: the bridge afterwards, the Go return values and the
external actions performed. -/
structure ChatOutcome where
  agent : AgentWrapper
  text : String
  err : Option ChatError
  effects : List Effect

/-- `AgentWrapper.ChatACP`. -/
def ChatACP (a : AgentWrapper) (prompt : String) : ChatOutcome :=
  let a := { a with reqID := a.reqID + 1 }
  let req := promptReq a.reqID a.sessionID prompt
  let sent := sendJSON a.stdin
  let a := { a with stdin := sent.2 }
  if sent.1 = false then
    { agent := a, text := "", err := some .sendFailed, effects := [.send req] }
  else
    let out := ChatACP.loop a.reader ""
    { agent := { a with reader := out.2 }, text := out.1.1, err := out.1.2,
      effects := [.send req] }

/-! ## Start and the handshake -/

/-- What the operating system and the agent process do during one `Start`. -/
structure StartEnv where
  /-- Whether `cmd.StdinPipe()` succeeds. -/
  stdinPipe : Bool
  /-- Whether `cmd.StdoutPipe()` succeeds. -/
  stdoutPipe : Bool
  /-- The result of `cmd.Start()`: the id of the new process, `none` when it fails. -/
  start : Option Nat
  /-- The result of `os.Getwd()`. -/
  cwd : String
  /-- The outcomes of the writes to the new process's standard input. -/
  stdin : Writer
  /-- The lines the new process writes to its standard output. -/
  stdout : Reader

/-- The errors of the handshake. -/
inductive InitError where
  /-- The error of a failed `sendJSON`. -/
  | send
  /-- The error of a failed `readJSON`. -/
  | read (e : ReadError)
  /-- The error `"initialize error: %v"`. -/
  | initializeError (errObj : JSON)
  /-- The error `"session/new error: %v"`. -/
  | sessionNewError (errObj : JSON)
  /-- The error `"failed to get session ID from response"`. -/
  | noSessionID

/-- The errors `Start` returns. -/
inductive StartError where
  /-- The error `"failed to get stdin pipe: %w"`. -/
  | stdinPipe
  /-- The error `"failed to get stdout pipe: %w"`. -/
  | stdoutPipe
  deriving DecidableEq

/-- The result of the handshake. -/
structure InitOutcome where
  agent : AgentWrapper
  err : Option InitError
  effects : List Effect

/-- The result of `Start`. -/
structure StartOutcome where
  agent : AgentWrapper
  err : Option StartError
  effects : List Effect

/-- The `initialize` request. -/
def initReq (reqID : Int) : JSON :=
  .obj [("jsonrpc", .str "2.0"), ("id", .num reqID 0), ("method", .str "initialize"),
    ("params", .obj [("protocolVersion", .num 1 0),
      ("clientInfo", .obj [("name", .str "lloro"), ("version", .str "1.0.0")]),
      ("clientCapabilities", .obj [])])]

/-- The `initialized` notification. -/
def initializedNotif : JSON :=
  .obj [("jsonrpc", .str "2.0"), ("method", .str "initialized")]

/-- The `session/new` request. -/
def newSessionReq (reqID : Int) (cwd : String) : JSON :=
  .obj [("jsonrpc", .str "2.0"), ("id", .num reqID 0), ("method", .str "session/new"),
    ("params", .obj [("cwd", .str cwd), ("mcpServers", .arr [])])]

/-- The two nested type assertions that extract the session id in the handshake: the
value assigned to `a.sessionID`, `none` when no assignment happens. -/
def extractSessionID (resp : Msg) : Option String := do
  let result ← asMap (resp.get "result")
  asString (result.get "sessionId")

/-- `AgentWrapper.initialize` (the three-step handshake). -/
def initializeACP (a : AgentWrapper) (cwd : String) : InitOutcome :=
  -- Step 1: Initialize protocol
  let a := { a with reqID := a.reqID + 1 }
  let req1 := initReq a.reqID
  let sent := sendJSON a.stdin
  let a := { a with stdin := sent.2 }
  if sent.1 = false then
    { agent := a, err := some .send, effects := [.send req1] }
  else
    let rd := readJSON a.reader
    let a := { a with reader := rd.2 }
    match rd.1 with
    | .error e => { agent := a, err := some (.read e), effects := [.send req1] }
    | .ok resp =>
      match resp.get "error" with
      | some errObj =>
        { agent := a, err := some (.initializeError errObj), effects := [.send req1] }
      | none =>
        -- Step 2: Send initialized notification
        let sent := sendJSON a.stdin
        let a := { a with stdin := sent.2 }
        if sent.1 = false then
          { agent := a, err := some .send, effects := [.send req1, .send initializedNotif] }
        else
          -- Step 3: Create new session
          let a := { a with reqID := a.reqID + 1 }
          let req2 := newSessionReq a.reqID cwd
          let effects := [.send req1, .send initializedNotif, .send req2]
          let sent := sendJSON a.stdin
          let a := { a with stdin := sent.2 }
          if sent.1 = false then
            { agent := a, err := some .send, effects := effects }
          else
            let rd := readJSON a.reader
            let a := { a with reader := rd.2 }
            match rd.1 with
            | .error e => { agent := a, err := some (.read e), effects := effects }
            | .ok resp =>
              match resp.get "error" with
              | some errObj =>
                { agent := a, err := some (.sessionNewError errObj), effects := effects }
              | none =>
                let a :=
                  match extractSessionID resp with
                  | some sid => { a with sessionID := sid }
                  | none => a
                if a.sessionID = "" then
                  { agent := a, err := some .noSessionID, effects := effects }
                else
                  { agent := a, err := none, effects := effects }

/-- The command line of the interactive process. -/
def acpArgs (model : String) : List String :=
  ["gemini", "--experimental-acp", "--model", model]

/-- `AgentWrapper.startACP`. -/
def startACP (a : AgentWrapper) (model : String) (env : StartEnv) : StartOutcome :=
  let a := { a with cmd := some { Args := acpArgs model, Process := none } }
  if env.stdinPipe = false then
    { agent := { a with stdin := [] }, err := some .stdinPipe, effects := [] }
  else
    let a := { a with stdin := env.stdin }
    if env.stdoutPipe = false then
      { agent := a, err := some .stdoutPipe, effects := [] }
    else
      let a := { a with reader := env.stdout }
      match env.start with
      | none =>
        { agent := { a with useACP := false }, err := none, effects := [.spawn (acpArgs model)] }
      | some pid =>
        let a := { a with cmd := some { Args := acpArgs model, Process := some ⟨pid⟩ } }
        let init := initializeACP a env.cwd
        match init.err with
        | some _ =>
          { agent := { init.agent with cmd := none, useACP := false }, err := none,
            effects := .spawn (acpArgs model) :: init.effects ++ [.kill pid, .wait pid] }
        | none =>
          { agent := init.agent, err := none, effects := .spawn (acpArgs model) :: init.effects }

/-- The guarded `Kill` and `Wait` at the head of `Start` and `Stop`. -/
def killExisting (a : AgentWrapper) : List Effect :=
  match a.cmd with
  | some c =>
    match c.Process with
    | some p => [.kill p.Pid, .wait p.Pid]
    | none => []
  | none => []

/-- `AgentWrapper.Start`.  (The source comments the reset of the session id with "Will be
set by session/create"; the request the handshake sends, and this model with it, is
`session/new`.) -/
def Start (a : AgentWrapper) (model : String) (env : StartEnv) : StartOutcome :=
  let killed := killExisting a
  let a := { a with model := model, reqID := 0, sessionID := "" }
  if a.useACP then
    let out := startACP a model env
    { out with effects := killed ++ out.effects }
  else
    { agent := a, err := none, effects := killed }

/-- `AgentWrapper.Stop`. -/
def Stop (a : AgentWrapper) : AgentWrapper × List Effect :=
  ({ a with cmd := none }, killExisting a)

/-- The test `a.cmd != nil && a.cmd.Process != nil`. -/
def hasProcess (a : AgentWrapper) : Bool :=
  match a.cmd with
  | some c => c.Process.isSome
  | none => false

/-- `AgentWrapper.IsRunning`. -/
def IsRunning (a : AgentWrapper) : Bool :=
  a.useACP && hasProcess a

/-- `AgentWrapper.GetModel`. -/
def GetModel (a : AgentWrapper) : String :=
  a.model

/-- `AgentWrapper.GetMode`. -/
def GetMode (a : AgentWrapper) : String :=
  if a.useACP && a.cmd.isSome then "acp" else "simple"

/-! ## The standard library functions used by `ChatSimple`

`json.Unmarshal` and `strings.TrimSpace` belong to the Go standard library, not to the
repository; they are modelled here after their documentation so that `ChatSimple` can be
run on captured output. -/

/-- JSON insignificant whitespace. -/
def isJSONSpace (c : Char) : Bool :=
  c = ' ' || c = '\t' || c = '\r' || c = '\n'

/-- Skip insignificant whitespace. -/
def skipSpace (cs : List Char) : List Char :=
  cs.dropWhile isJSONSpace

/-- The value of a hexadecimal digit. -/
def hexDigit (c : Char) : Option Nat :=
  if '0' ≤ c ∧ c ≤ '9' then some (c.toNat - '0'.toNat)
  else if 'a' ≤ c ∧ c ≤ 'f' then some (c.toNat - 'a'.toNat + 10)
  else if 'A' ≤ c ∧ c ≤ 'F' then some (c.toNat - 'A'.toNat + 10)
  else none

/-- One element of a string literal: a character, or the code unit of a `\uXXXX`
escape. -/
inductive StrUnit where
  | ch (c : Char)
  | u (code : Nat)

/-- The body of a string literal, after the opening quote: its elements and the input
after the closing quote. -/
def scanString : List Char → List StrUnit → Option (List StrUnit × List Char)
  | [], _ => none
  | c :: r, acc =>
    if c = '"' then some (acc.reverse, r)
    else if c = '\\' then
      match r with
      | 'u' :: a :: b :: c :: d :: r' =>
        match hexDigit a, hexDigit b, hexDigit c, hexDigit d with
        | some a, some b, some c, some d =>
          scanString r' (.u (((a * 16 + b) * 16 + c) * 16 + d) :: acc)
        | _, _, _, _ => none
      | e :: r' =>
        if e = '"' then scanString r' (.ch '"' :: acc)
        else if e = '\\' then scanString r' (.ch '\\' :: acc)
        else if e = '/' then scanString r' (.ch '/' :: acc)
        else if e = 'b' then scanString r' (.ch (Char.ofNat 8) :: acc)
        else if e = 'f' then scanString r' (.ch (Char.ofNat 12) :: acc)
        else if e = 'n' then scanString r' (.ch '\n' :: acc)
        else if e = 'r' then scanString r' (.ch '\r' :: acc)
        else if e = 't' then scanString r' (.ch '\t' :: acc)
        else none
      | [] => none
    else if c.toNat < 32 then none
    else scanString r (.ch c :: acc)

/-- The characters of a string literal: the escapes of a surrogate pair are combined and a
lone surrogate becomes U+FFFD.  `pending` is a surrogate escape met just before. -/
def unquote : Option Nat → List StrUnit → List Char
  | none, [] => []
  | none, .ch c :: tl => c :: unquote none tl
  | none, .u n :: tl =>
    if 0xD800 ≤ n ∧ n < 0xE000 then unquote (some n) tl
    else Char.ofNat n :: unquote none tl
  | some _, [] => [Char.ofNat 0xFFFD]
  | some _, .ch c :: tl => Char.ofNat 0xFFFD :: c :: unquote none tl
  | some hi, .u lo :: tl =>
    if hi < 0xDC00 ∧ 0xDC00 ≤ lo ∧ lo < 0xE000 then
      Char.ofNat ((hi - 0xD800) * 1024 + (lo - 0xDC00) + 0x10000) :: unquote none tl
    else if 0xD800 ≤ lo ∧ lo < 0xE000 then Char.ofNat 0xFFFD :: unquote (some lo) tl
    else Char.ofNat 0xFFFD :: Char.ofNat lo :: unquote none tl

/-- A string literal, after the opening quote. -/
def parseString (cs : List Char) : Option (String × List Char) :=
  match scanString cs [] with
  | some (us, r) => some (String.mk (unquote none us), r)
  | none => none

/-- The value of a run of decimal digits. -/
def digitsValue (ds : List Char) : Nat :=
  ds.foldl (fun n d => n * 10 + (d.toNat - '0'.toNat)) 0

/-- A number literal. -/
def parseNumber (cs : List Char) : Option (JSON × List Char) :=
  let neg := cs.head? = some '-'
  let cs := if neg then cs.tail else cs
  match cs with
  | [] => none
  | d :: r =>
    if ¬ d.isDigit then none
    else
      let ip : List Char × List Char := if d = '0' then ([d], r) else (d :: r.takeWhile Char.isDigit, r.dropWhile Char.isDigit)
      let fp : Option (List Char × List Char) :=
        match ip.2 with
        | '.' :: r1 =>
          if (r1.takeWhile Char.isDigit).isEmpty then none
          else some (r1.takeWhile Char.isDigit, r1.dropWhile Char.isDigit)
        | _ => some ([], ip.2)
      match fp with
      | none => none
      | some (fd, r2) =>
        let mant : Int := if neg then - (digitsValue (ip.1 ++ fd) : Int) else (digitsValue (ip.1 ++ fd) : Int)
        let expo (r3 : List Char) : Option (JSON × List Char) :=
          let eneg := r3.head? = some '-'
          let r4 := if r3.head? = some '-' ∨ r3.head? = some '+' then r3.tail else r3
          if (r4.takeWhile Char.isDigit).isEmpty then none
          else
            let e : Int := digitsValue (r4.takeWhile Char.isDigit)
            some (.num mant ((if eneg then -e else e) - fd.length), r4.dropWhile Char.isDigit)
        match r2 with
        | 'e' :: r3 => expo r3
        | 'E' :: r3 => expo r3
        | _ => some (.num mant (- (fd.length : Int)), r2)

/-- Strip the given characters from the front of the input. -/
def expect : List Char → List Char → Option (List Char)
  | [], cs => some cs
  | _ :: _, [] => none
  | p :: ps, c :: cs => if p = c then expect ps cs else none

/-- The elements of an array after the first one: `, value` repeated up to `]`.  `fuel`
bounds the number of elements; the caller passes the length of the input, which cannot be
reached since every element consumes a character. -/
def parseElements (pv : List Char → Option (JSON × List Char)) :
    Nat → List Char → List JSON → Option (JSON × List Char)
  | 0, _, _ => none
  | fuel + 1, cs, acc =>
    match skipSpace cs with
    | ']' :: r => some (.arr acc.reverse, r)
    | ',' :: r =>
      match pv (skipSpace r) with
      | some (v, r') => parseElements pv fuel r' (v :: acc)
      | none => none
    | _ => none

/-- One member `"key" : value`, the input being at the opening quote. -/
def parseMember (pv : List Char → Option (JSON × List Char)) (cs : List Char) :
    Option ((String × JSON) × List Char) :=
  match cs with
  | '"' :: r =>
    match parseString r with
    | some (k, r1) =>
      match skipSpace r1 with
      | ':' :: r2 =>
        match pv (skipSpace r2) with
        | some (v, r3) => some ((k, v), r3)
        | none => none
      | _ => none
    | none => none
  | _ => none

/-- The members of an object after the first one: `, member` repeated up to `}`.  `fuel`
bounds the number of members; the caller passes the length of the input, which cannot be
reached since every member consumes a character. -/
def parseMembers (pv : List Char → Option (JSON × List Char)) :
    Nat → List Char → List (String × JSON) → Option (JSON × List Char)
  | 0, _, _ => none
  | fuel + 1, cs, acc =>
    match skipSpace cs with
    | '}' :: r => some (.obj acc.reverse, r)
    | ',' :: r =>
      match parseMember pv (skipSpace r) with
      | some (kv, r') => parseMembers pv fuel r' (kv :: acc)
      | none => none
    | _ => none

/-- A value, the input being at its first character; `depth` bounds the nesting of arrays
and objects. -/
def parseValue : Nat → List Char → Option (JSON × List Char)
  | depth, cs =>
    match cs with
    | [] => none
    | c :: r =>
      if c = '{' then
        match depth with
        | 0 => none
        | d + 1 =>
          match skipSpace r with
          | '}' :: r1 => some (.obj [], r1)
          | r1 =>
            match parseMember (fun cs => parseValue d cs) r1 with
            | some (kv, r2) => parseMembers (fun cs => parseValue d cs) cs.length r2 [kv]
            | none => none
      else if c = '[' then
        match depth with
        | 0 => none
        | d + 1 =>
          match skipSpace r with
          | ']' :: r1 => some (.arr [], r1)
          | r1 =>
            match parseValue d r1 with
            | some (v, r2) => parseElements (fun cs => parseValue d cs) cs.length r2 [v]
            | none => none
      else if c = '"' then
        match parseString r with
        | some (s, r1) => some (.str s, r1)
        | none => none
      else if c = 't' then (expect "rue".data r).map fun r1 => (.bool true, r1)
      else if c = 'f' then (expect "alse".data r).map fun r1 => (.bool false, r1)
      else if c = 'n' then (expect "ull".data r).map fun r1 => (.null, r1)
      else parseNumber cs

/-- The validity check and parse of a whole document: one value surrounded by whitespace,
nested at most 10000 deep. -/
def parseJSON (s : String) : Option JSON :=
  match parseValue 10000 (skipSpace s.data) with
  | some (v, r) => if (skipSpace r).isEmpty then some v else none
  | none => none


/-- The anonymous struct of a content part in `ChatSimple`. -/
structure Part where
  Text : String
  deriving DecidableEq

/-- The anonymous struct `Content` of a candidate in `ChatSimple`. -/
structure CandidateContent where
  Parts : List Part
  deriving DecidableEq

/-- The anonymous struct of a candidate in `ChatSimple`. -/
structure Candidate where
  Content : CandidateContent
  deriving DecidableEq

/-- The anonymous struct `result` that `ChatSimple` unmarshals into. -/
structure SimpleResult where
  Response : String
  Text : String
  Content : String
  Candidates : List Candidate
  deriving DecidableEq

/-- Case folding of a key character, as far as it can reach an ASCII field name: ASCII
letters are upper-cased, and U+017F and U+212A fold to `S` and `K`. -/
def foldRune (c : Char) : Char :=
  if 'a' ≤ c ∧ c ≤ 'z' then Char.ofNat (c.toNat - 32)
  else if c = Char.ofNat 0x17F then 'S'
  else if c = Char.ofNat 0x212A then 'K'
  else c

/-- The folded form of a key or field name. -/
def foldName (s : String) : List Char :=
  s.data.map foldRune

/-- The struct field, among those tagged `names`, that an object key selects: an exact
match is preferred, a case-insensitive one accepted. -/
def fieldOf (names : List String) (key : String) : Option String :=
  if names.contains key then some key
  else names.find? fun n => foldName n = foldName key

/-- Unmarshal a value into a `string` field holding `cur`; `none` is a type error. -/
def decodeString (cur : String) : JSON → Option String
  | .str s => some s
  | .null => some cur
  | _ => none

/-- Unmarshal a value into a struct holding `cur`, `field` storing one member. -/
def decodeStruct {α : Type} (field : α → String × JSON → Option α) (cur : α) :
    JSON → Option α
  | .obj kvs => kvs.foldlM field cur
  | .null => some cur
  | _ => none

/-- Unmarshal a value into a slice field, `elem` decoding one element into a zero value. -/
def decodeSlice {α : Type} (elem : JSON → Option α) : JSON → Option (List α)
  | .arr xs => xs.mapM elem
  | .null => some []
  | _ => none

/-- Store one member of a content part. -/
def decodePartField (p : Part) (kv : String × JSON) : Option Part :=
  match fieldOf ["text"] kv.1 with
  | some _ => (decodeString p.Text kv.2).map fun t => { p with Text := t }
  | none => some p

/-- Store one member of a candidate's content. -/
def decodeContentField (c : CandidateContent) (kv : String × JSON) :
    Option CandidateContent :=
  match fieldOf ["parts"] kv.1 with
  | some _ =>
    (decodeSlice (decodeStruct decodePartField { Text := "" }) kv.2).map fun ps =>
      { c with Parts := ps }
  | none => some c

/-- Store one member of a candidate. -/
def decodeCandidateField (c : Candidate) (kv : String × JSON) : Option Candidate :=
  match fieldOf ["content"] kv.1 with
  | some _ =>
    (decodeStruct decodeContentField c.Content kv.2).map fun x => { c with Content := x }
  | none => some c

/-- Store one member of the top-level struct. -/
def decodeResultField (r : SimpleResult) (kv : String × JSON) : Option SimpleResult :=
  match fieldOf ["response", "text", "content", "candidates"] kv.1 with
  | some "response" => (decodeString r.Response kv.2).map fun t => { r with Response := t }
  | some "text" => (decodeString r.Text kv.2).map fun t => { r with Text := t }
  | some "content" => (decodeString r.Content kv.2).map fun t => { r with Content := t }
  | some _ =>
    (decodeSlice (decodeStruct decodeCandidateField { Content := { Parts := [] } }) kv.2).map
      fun cs => { r with Candidates := cs }
  | none => some r

/-- The call `json.Unmarshal([]byte(output), &result)` on a zero `result`: the struct it
fills, `none` when it returns an error (invalid JSON, or a value of the wrong type for a
field). -/
def jsonUnmarshal (output : String) : Option SimpleResult :=
  match parseJSON output with
  | some v =>
    decodeStruct decodeResultField { Response := "", Text := "", Content := "", Candidates := [] } v
  | none => none

/-- The predicate `unicode.IsSpace`. -/
def isSpace (c : Char) : Bool :=
  let n := c.toNat
  (0x09 ≤ n && n ≤ 0x0D) || n = 0x20 || n = 0x85 || n = 0xA0 || n = 0x1680 ||
    (0x2000 ≤ n && n ≤ 0x200A) || n = 0x2028 || n = 0x2029 || n = 0x202F || n = 0x205F ||
    n = 0x3000

/-- `strings.TrimSpace`. -/
def TrimSpace (s : String) : String :=
  String.mk ((s.data.dropWhile isSpace).reverse.dropWhile isSpace).reverse

/-! ## ChatSimple and Chat -/

/-- What the one-shot process does: whether `cmd.Run()` returns an error, and the captured
standard output and standard error. -/
structure RunResult where
  failed : Bool
  stdout : String
  stderr : String

/-- The command line of the one-shot process. -/
def simpleArgs (prompt model : String) : List String :=
  ["gemini", "-p", prompt, "--output-format", "json", "--model", model]

/-- The field probing of `ChatSimple` once `json.Unmarshal` has succeeded. -/
def pickResponse (result : SimpleResult) (output : String) : String :=
  if result.Response ≠ "" then result.Response
  else if result.Text ≠ "" then result.Text
  else if result.Content ≠ "" then result.Content
  else
    match result.Candidates with
    | c :: _ =>
      match c.Content.Parts with
      | p :: _ => p.Text
      | [] => TrimSpace output
    | [] => TrimSpace output

/-- `AgentWrapper.ChatSimple`.  (On a parse error the source's comment and log line say
"return raw output"; the statement returns `strings.TrimSpace(output)`, and so does this
definition.) -/
def ChatSimple (a : AgentWrapper) (prompt : String) (run : RunResult) : ChatOutcome :=
  let effects := [.run (simpleArgs prompt a.model)]
  if run.failed then
    { agent := a, text := "", err := some (.geminiFailed run.stderr), effects := effects }
  else
    let output := run.stdout
    match jsonUnmarshal output with
    | none => { agent := a, text := TrimSpace output, err := none, effects := effects }
    | some result =>
      { agent := a, text := pickResponse result output, err := none, effects := effects }

/-- `AgentWrapper.Chat`. -/
def Chat (a : AgentWrapper) (prompt : String) (run : RunResult) : ChatOutcome :=
  if a.useACP && hasProcess a then ChatACP a prompt
  else ChatSimple a prompt run

/-! ## Sequences of calls -/

/-- One call of a method of the bridge, with what the environment does during it. -/
inductive Op where
  | start (model : String) (env : StartEnv)
  | stop
  | chat (prompt : String) (run : RunResult)
  | isRunning
  | getModel
  | getMode

/-- The bridge after one call. -/
def step (a : AgentWrapper) : Op → AgentWrapper
  | .start model env => (Start a model env).agent
  | .stop => (Stop a).1
  | .chat prompt run => (Chat a prompt run).agent
  | .isRunning => a
  | .getModel => a
  | .getMode => a

/-- The bridge after a sequence of calls. -/
def runOps (a : AgentWrapper) (ops : List Op) : AgentWrapper :=
  ops.foldl step a

/-- Whether a call is a `Start`. -/
def Op.isStart : Op → Bool
  | .start _ _ => true
  | _ => false

/-- Whether a call is a `Stop`. -/
def Op.isStop : Op → Bool
  | .stop => true
  | _ => false

/-! ## The vocabulary of the specification -/

/-- The member `k` of a value that is an object (`v.k` in the specification's paths). -/
def fieldAt (v : Option JSON) (k : String) : Option JSON :=
  (asMap v).bind fun m => m.get k

/-- A `session/update` notification: a message whose method is `"session/update"`. -/
def isSessionUpdate (m : Msg) : Bool :=
  asString (m.get "method") = some "session/update"

/-- The update kind `params.update.sessionUpdate` of a message. -/
def updateKind (m : Msg) : Option String :=
  asString (fieldAt (fieldAt (m.get "params") "update") "sessionUpdate")

/-- The fragment `params.update.content.text` of a message (empty when the message has no
such string). -/
def fragmentText (m : Msg) : String :=
  (asString (fieldAt (fieldAt (fieldAt (m.get "params") "update") "content") "text")).getD ""

/-- An agent-message chunk: a `session/update` notification of kind
`"agent_message_chunk"`. -/
def isAgentMessageChunk (m : Msg) : Bool :=
  isSessionUpdate m && updateKind m = some "agent_message_chunk"

/-- The concatenation, in receipt order, of the fragments of the agent-message chunks among
the received messages. -/
def aggregate : List Msg → String
  | [] => ""
  | m :: ms => if isAgentMessageChunk m then fragmentText m ++ aggregate ms else aggregate ms

/-- A well-formed message: one with a method carries neither `result` nor `error`. -/
def wellFormed (m : Msg) : Bool :=
  !m.has "method" || (!m.has "result" && !m.has "error")

/-- The session id the handshake is specified to end with: all three sends succeed, the two
responses are read, neither carries an `error` field and the second has a non-empty string
`result.sessionId`; `none` in every other case. -/
def handshakeSessionID (env : StartEnv) : Option String :=
  match env.stdin, env.stdout with
  | true :: true :: true :: _, .msg r1 :: .msg r2 :: _ =>
    if r1.has "error" || r2.has "error" then none
    else
      match asString (fieldAt (r2.get "result") "sessionId") with
      | some s => if s = "" then none else some s
      | none => none
  | _, _ => none

/-- The first content part of the first candidate, the fourth probe of `ChatSimple`. -/
def firstPart (r : SimpleResult) : Option Part :=
  r.Candidates.head?.bind fun c => c.Content.Parts.head?

/-- The state `Ready` of the handshake with session id `s`: interactive mode, the handle of
process `pid` kept, session id `s`. -/
def Ready (out : StartOutcome) (model : String) (pid : Nat) (s : String) : Prop :=
  out.agent.useACP = true ∧ GetMode out.agent = "acp" ∧ IsRunning out.agent = true ∧
    out.agent.cmd = some { Args := acpArgs model, Process := some ⟨pid⟩ } ∧
    out.agent.sessionID = s ∧ s ≠ ""

/-- The state `Degraded` of the handshake: process `pid` killed and waited for as the last
actions, the handle cleared, fallback mode, no session id. -/
def Degraded (out : StartOutcome) (pid : Nat) : Prop :=
  (∃ before, out.effects = before ++ [.kill pid, .wait pid]) ∧ out.agent.cmd = none ∧
    out.agent.useACP = false ∧ GetMode out.agent = "simple" ∧ IsRunning out.agent = false ∧
    out.agent.sessionID = ""

/-- The bridge as `startACP` hands it to the handshake once process `pid` has started:
model set, counter and session id reset, pipes wired, process handle stored. -/
def spawned (a : AgentWrapper) (model : String) (env : StartEnv) (pid : Nat) : AgentWrapper :=
  { a with
    model := model, reqID := 0, sessionID := "", stdin := env.stdin, reader := env.stdout,
    cmd := some { Args := acpArgs model, Process := some ⟨pid⟩ } }

/-! ## Example data -/

/-- An agent-message chunk carrying `t`, as the agent sends it. -/
def chunkMsg (t : String) : Msg :=
  [("jsonrpc", .str "2.0"), ("method", .str "session/update"),
    ("params", .obj [("update", .obj [("sessionUpdate", .str "agent_message_chunk"),
      ("content", .obj [("type", .str "text"), ("text", .str t)])])])]

/-- A `session/update` notification of another kind. -/
def thoughtMsg : Msg :=
  [("jsonrpc", .str "2.0"), ("method", .str "session/update"),
    ("params", .obj [("update", .obj [("sessionUpdate", .str "agent_thought_chunk"),
      ("content", .obj [("type", .str "text"), ("text", .str "hmm")])])])]

/-- The final response of a turn. -/
def resultMsg : Msg :=
  [("jsonrpc", .str "2.0"), ("id", .num 3 0), ("result", .obj [("stopReason", .str "end_turn")])]

/-- An error payload. -/
def errPayload : JSON :=
  .obj [("code", .num (-32000) 0), ("message", .str "boom")]

/-- An error response. -/
def errorMsg : Msg :=
  [("jsonrpc", .str "2.0"), ("id", .num 3 0), ("error", errPayload)]

/-- A `session/update` notification that also bears an `error` field. -/
def updateWithError : Msg :=
  [("jsonrpc", .str "2.0"), ("method", .str "session/update"), ("error", errPayload)]

/-- A bridge in interactive mode whose process accepts one write and produces `lines`. -/
def readyAgent (lines : Reader) : AgentWrapper :=
  { cmd := some { Args := acpArgs "m", Process := some ⟨7⟩ }, stdin := [true], reader := lines,
    model := "m", reqID := 2, sessionID := "sess-1", useACP := true }

/-- A response to `initialize`. -/
def initResp : Msg :=
  [("jsonrpc", .str "2.0"), ("id", .num 1 0), ("result", .obj [("protocolVersion", .num 1 0)])]

/-- A response to `session/new` carrying the session id `"sess-1"`. -/
def sessionResp : Msg :=
  [("jsonrpc", .str "2.0"), ("id", .num 2 0), ("result", .obj [("sessionId", .str "sess-1")])]

/-- An environment in which everything succeeds: process 7 starts and completes the
handshake with session id `"sess-1"`. -/
def goodEnv : StartEnv :=
  { stdinPipe := true, stdoutPipe := true, start := some 7, cwd := "/tmp",
    stdin := [true, true, true, true], stdout := [.msg initResp, .msg sessionResp] }

/-- An environment in which the process starts and answers `initialize` with an error. -/
def refusingEnv : StartEnv :=
  { goodEnv with stdout := [.msg errorMsg] }

/-- An environment in which the standard input pipe cannot be created. -/
def noPipeEnv : StartEnv :=
  { goodEnv with stdinPipe := false }

/-- The chunks `"Hello"`, `", "`, `"world"` interleaved with a notification of another
kind. -/
def helloChunks : List Msg :=
  [chunkMsg "Hello", chunkMsg ", ", thoughtMsg, chunkMsg "world"]

/-- A bridge degraded to fallback mode by a failed handshake. -/
def degradedAgent : AgentWrapper :=
  (Start NewAgentWrapper "m" refusingEnv).agent

/-- The document `{"response":"A"}`. -/
def docResponse : String :=
  "\x7b\"response\":\"A\"\x7d"

/-- The document `{"text":"B"}`. -/
def docText : String :=
  "\x7b\"text\":\"B\"\x7d"

/-- The document `{"content":"C"}`. -/
def docContent : String :=
  "\x7b\"content\":\"C\"\x7d"

/-- The document `{"candidates":[{"content":{"parts":[{"text":"D"}]}}]}`. -/
def docCandidates : String :=
  "\x7b\"candidates\":[\x7b\"content\":\x7b\"parts\":[\x7b\"text\":\"D\"\x7d]\x7d\x7d]\x7d"

/-- The document `{"text":"B","response":"A"}`. -/
def docTextAndResponse : String :=
  "\x7b\"text\":\"B\",\"response\":\"A\"\x7d"

/-- The document `{"candidates":[{"content":{"parts":[{}]}}]}`, whose only content part
is the empty object. -/
def docEmptyPart : String :=
  "\x7b\"candidates\":[\x7b\"content\":\x7b\"parts\":[\x7b\x7d]\x7d\x7d]\x7d"

/-- A successful one-shot run that printed `output`. -/
def printed (output : String) : RunResult :=
  { failed := false, stdout := output, stderr := "" }

/-! ## The streaming aggregator -/

/-- The type assertion to a string fails on a missing value. -/
@[simp] theorem asString_none : asString none = none := rfl

/-- The type assertion to a map fails on a missing value. -/
@[simp] theorem asMap_none : asMap none = none := rfl

/-- The text the `session/update` branch writes is the fragment of the message when the
message is an agent-message chunk, and nothing otherwise. -/
theorem chunkText_getD (m : Msg) (h : isSessionUpdate m = true) :
    (chunkText m).getD "" = if isAgentMessageChunk m then fragmentText m else "" := by
  unfold chunkText isAgentMessageChunk updateKind fragmentText fieldAt
  simp only [h, Bool.true_and]
  cases hp : asMap (m.get "params") with
  | none => simp
  | some params =>
    cases hu : asMap (params.get "update") with
    | none => simp [hu]
    | some update =>
      cases hs : asString (update.get "sessionUpdate") with
      | none => simp [hu, hs]
      | some su =>
        by_cases hk : su = "agent_message_chunk"
        · cases hc : asMap (update.get "content") <;> simp [hk, hu, hs, hc]
        · simp [hk, hu, hs]

/-- A message without the string method `"session/update"` is no agent-message chunk. -/
theorem not_chunk_of_not_update (m : Msg) (h : isSessionUpdate m = false) :
    isAgentMessageChunk m = false := by
  simp [isAgentMessageChunk, h]

/-- One iteration of the loop, as the source writes it: `readJSON`, then the tests on its
result. -/
theorem loop_readJSON (r : Reader) (acc : String) :
    ChatACP.loop r acc =
      match (readJSON r).1 with
      | .error err =>
        if err = .EOF then ((acc, none), (readJSON r).2)
        else (("", some (.readFailed err)), (readJSON r).2)
      | .ok resp =>
        if asString (resp.get "method") = some "session/update" then
          ChatACP.loop (readJSON r).2 (acc ++ (chunkText resp).getD "")
        else if resp.has "result" then ((acc, none), (readJSON r).2)
        else
          match resp.get "error" with
          | some errObj => (("", some (.agent errObj)), (readJSON r).2)
          | none => ChatACP.loop (readJSON r).2 acc := by
  cases r with
  | nil => simp [ChatACP.loop, readJSON, decodeLine]
  | cons l rest => cases l <;> simp [ChatACP.loop, readJSON, decodeLine]

/-- The loop on a `session/update` notification: the branch that may append, then
`continue`. -/
theorem loop_update (m : Msg) (rest : Reader) (acc : String) (h : isSessionUpdate m = true) :
    ChatACP.loop (Line.msg m :: rest) acc
      = ChatACP.loop rest (acc ++ (chunkText m).getD "") := by
  have hm : asString (m.get "method") = some "session/update" := by
    simpa [isSessionUpdate] using h
  simp [ChatACP.loop, decodeLine, hm]

/-- The loop on a message that is no notification and bears neither `result` nor `error`:
the next iteration. -/
theorem loop_ignore (m : Msg) (rest : Reader) (acc : String) (h : isSessionUpdate m = false)
    (hres : m.has "result" = false) (herr : m.has "error" = false) :
    ChatACP.loop (Line.msg m :: rest) acc = ChatACP.loop rest acc := by
  have hm : ¬ asString (m.get "method") = some "session/update" := by
    simpa [isSessionUpdate] using h
  have he : m.get "error" = none := by simpa [Msg.has] using herr
  simp [ChatACP.loop, decodeLine, hm, hres, he]

/-- The loop on a message that is no notification and bears `result`: `break`. -/
theorem loop_result (m : Msg) (rest : Reader) (acc : String) (h : isSessionUpdate m = false)
    (hres : m.has "result" = true) :
    ChatACP.loop (Line.msg m :: rest) acc = ((acc, none), rest) := by
  have hm : ¬ asString (m.get "method") = some "session/update" := by
    simpa [isSessionUpdate] using h
  simp [ChatACP.loop, decodeLine, hm, hres]

/-- The loop on a message that is no notification and bears `error` but not `result`: the
error return. -/
theorem loop_error (m : Msg) (errObj : JSON) (rest : Reader) (acc : String)
    (h : isSessionUpdate m = false) (hres : m.has "result" = false)
    (herr : m.get "error" = some errObj) :
    ChatACP.loop (Line.msg m :: rest) acc = (("", some (.agent errObj)), rest) := by
  have hm : ¬ asString (m.get "method") = some "session/update" := by
    simpa [isSessionUpdate] using h
  simp [ChatACP.loop, decodeLine, hm, hres, herr]

/-- The loop reads through notifications and through messages bearing neither `result` nor
`error`, appending the fragments of the agent-message chunks in order. -/
theorem loop_append (pre : List Msg) (rest : Reader) (acc : String)
    (h : ∀ m ∈ pre, isSessionUpdate m = true ∨ (m.has "result" = false ∧ m.has "error" = false)) :
    ChatACP.loop (pre.map Line.msg ++ rest) acc = ChatACP.loop rest (acc ++ aggregate pre) := by
  induction pre generalizing acc with
  | nil => simp [aggregate]
  | cons m ms ih =>
    have hms : ∀ x ∈ ms, isSessionUpdate x = true ∨ (x.has "result" = false ∧ x.has "error" = false) :=
      fun x hx => h x (List.mem_cons_of_mem _ hx)
    rw [List.map_cons, List.cons_append]
    by_cases hu : isSessionUpdate m = true
    · rw [loop_update m _ acc hu, ih _ hms, chunkText_getD m hu]
      by_cases hc : isAgentMessageChunk m = true
      · simp [aggregate, hc, String.append_assoc]
      · simp [aggregate, hc]
    · have hu' : isSessionUpdate m = false := by simpa using hu
      have hre := (h m (List.mem_cons_self _ _)).resolve_left hu
      rw [loop_ignore m _ acc hu' hre.1 hre.2, ih _ hms]
      simp [aggregate, not_chunk_of_not_update m hu']

/-- After a successful send, `ChatACP` returns what the read loop returns. -/
theorem ChatACP_of_sent (a : AgentWrapper) (prompt : String) (h : (sendJSON a.stdin).1 = true) :
    (ChatACP a prompt).text = (ChatACP.loop a.reader "").1.1 ∧
      (ChatACP a prompt).err = (ChatACP.loop a.reader "").1.2 := by
  simp [ChatACP, h]

/-- A well-formed message bearing `result` or `error` is no `session/update`
notification. -/
theorem not_update_of_wellFormed (m : Msg) (hwf : wellFormed m = true)
    (h : m.has "result" = true ∨ m.has "error" = true) : isSessionUpdate m = false := by
  have hmeth : m.has "method" = false := by
    cases hm : m.has "method" with
    | false => rfl
    | true =>
      rcases h with h | h <;> simp [wellFormed, hm, h] at hwf
  have : m.get "method" = none := by simpa [Msg.has] using hmeth
  simp [isSessionUpdate, this, asString]

/-- C1, as amended: for every finite sequence of well-formed received messages that ends
with the first message bearing a `result` field, and in which no earlier message bears an
`error` field, `ChatACP` (its prompt sent) returns without error exactly the concatenation,
in receipt order, of the fragments of the preceding agent-message chunks. -/
theorem ChatACP_result_returns_aggregate (a : AgentWrapper) (prompt : String)
    (pre : List Msg) (fin : Msg) (rest : Reader)
    (hsent : (sendJSON a.stdin).1 = true)
    (hreader : a.reader = (pre ++ [fin]).map Line.msg ++ rest)
    (hwf : ∀ m ∈ pre ++ [fin], wellFormed m = true)
    (hfirst : ∀ m ∈ pre, m.has "result" = false)
    (hnoerr : ∀ m ∈ pre, m.has "error" = false)
    (hfin : fin.has "result" = true) :
    (ChatACP a prompt).text = aggregate pre ∧ (ChatACP a prompt).err = none := by
  have hpre : ∀ m ∈ pre,
      isSessionUpdate m = true ∨ (m.has "result" = false ∧ m.has "error" = false) :=
    fun m hm => Or.inr ⟨hfirst m hm, hnoerr m hm⟩
  have hu : isSessionUpdate fin = false :=
    not_update_of_wellFormed fin (hwf fin (by simp)) (Or.inl hfin)
  have hloop : ChatACP.loop a.reader "" = ((aggregate pre, none), rest) := by
    rw [hreader, List.map_append, List.append_assoc, loop_append pre _ "" hpre]
    simpa using loop_result fin rest _ hu hfin
  have := ChatACP_of_sent a prompt hsent
  rw [hloop] at this
  exact this

/-- C2, as amended: when a message that is not a `session/update` notification and bears an
`error` field (and no `result` field) arrives before end-of-channel and before any other
message that, without being a `session/update` notification, bears a `result` or `error`
field, `ChatACP` (its prompt sent) returns an error carrying that payload, and the empty
string, whatever chunks were received before. -/
theorem ChatACP_error_discards_text (a : AgentWrapper) (prompt : String)
    (pre : List Msg) (e : Msg) (errObj : JSON) (rest : Reader)
    (hsent : (sendJSON a.stdin).1 = true)
    (hreader : a.reader = pre.map Line.msg ++ Line.msg e :: rest)
    (hpre : ∀ m ∈ pre,
      isSessionUpdate m = true ∨ (m.has "result" = false ∧ m.has "error" = false))
    (hupd : isSessionUpdate e = false)
    (hres : e.has "result" = false)
    (herr : e.get "error" = some errObj) :
    (ChatACP a prompt).text = "" ∧ (ChatACP a prompt).err = some (.agent errObj) := by
  have hloop : ChatACP.loop a.reader "" = (("", some (.agent errObj)), rest) := by
    rw [hreader, loop_append pre _ "" hpre]
    exact loop_error e errObj rest _ hupd hres herr
  have := ChatACP_of_sent a prompt hsent
  rw [hloop] at this
  exact this

/-- C3: for every stream of received messages that reaches end-of-input before any message
bearing a `result` or `error` field, `ChatACP` (its prompt sent) returns no error and the
concatenation, in receipt order, of the fragments of the agent-message chunks received. -/
theorem ChatACP_eof_returns_aggregate (a : AgentWrapper) (prompt : String) (msgs : List Msg)
    (hsent : (sendJSON a.stdin).1 = true)
    (hreader : a.reader = msgs.map Line.msg)
    (hnone : ∀ m ∈ msgs, m.has "result" = false ∧ m.has "error" = false) :
    (ChatACP a prompt).text = aggregate msgs ∧ (ChatACP a prompt).err = none := by
  have hloop : ChatACP.loop a.reader "" = ((aggregate msgs, none), []) := by
    have := loop_append msgs [] "" (fun m hm => Or.inr (hnone m hm))
    rw [List.append_nil] at this
    rw [hreader, this]
    simp [ChatACP.loop]
  have := ChatACP_of_sent a prompt hsent
  rw [hloop] at this
  exact this

/-- C1 at the chunks `"Hello"`, `", "`, `"world"` interleaved with a notification of another
kind and followed by the final response: the result is `"Hello, world"`. -/
theorem ChatACP_result_returns_aggregate_witness :
    (ChatACP (readyAgent ((helloChunks ++ [resultMsg]).map Line.msg)) "hi").text = "Hello, world" ∧
      (ChatACP (readyAgent ((helloChunks ++ [resultMsg]).map Line.msg)) "hi").err = none := by
  have h := ChatACP_result_returns_aggregate
    (readyAgent ((helloChunks ++ [resultMsg]).map Line.msg)) "hi" helloChunks resultMsg []
    (by decide) (by simp [readyAgent]) (by decide) (by decide) (by decide) (by decide)
  exact ⟨h.1.trans (by decide), h.2⟩

/-- C1 as stated fails: in the sequence of an error response followed by the final
response, both well-formed, the second is the first message bearing `result`, yet `ChatACP`
returns the error of the first and no text. -/
theorem ChatACP_error_before_result_counterexample :
    (∀ m ∈ [errorMsg, resultMsg], wellFormed m = true) ∧
      errorMsg.has "result" = false ∧ resultMsg.has "result" = true ∧
      (sendJSON (readyAgent [.msg errorMsg, .msg resultMsg]).stdin).1 = true ∧
      (ChatACP (readyAgent [.msg errorMsg, .msg resultMsg]) "hi").err
        = some (.agent errPayload) ∧
      (ChatACP (readyAgent [.msg errorMsg, .msg resultMsg]) "hi").text = "" :=
  ⟨by decide, by decide, by decide, by decide, rfl, by decide⟩

/-- C2 at two chunks followed by an error response and a final response: the error payload
is returned and the text is empty. -/
theorem ChatACP_error_discards_text_witness :
    (ChatACP (readyAgent [.msg (chunkMsg "Hello"), .msg (chunkMsg ", "), .msg errorMsg,
        .msg resultMsg]) "hi").text = "" ∧
      (ChatACP (readyAgent [.msg (chunkMsg "Hello"), .msg (chunkMsg ", "), .msg errorMsg,
        .msg resultMsg]) "hi").err = some (.agent errPayload) :=
  ChatACP_error_discards_text _ "hi" [chunkMsg "Hello", chunkMsg ", "] errorMsg errPayload
    [.msg resultMsg] (by decide) (by simp [readyAgent]) (by decide) (by decide) (by decide) rfl

/-- C2 as stated fails: a `session/update` notification bearing an `error` field arrives
after a chunk, before end-of-channel and with no message bearing `result`, yet `ChatACP`
returns no error and the text of the chunk. -/
theorem ChatACP_update_with_error_counterexample :
    updateWithError.get "error" = some errPayload ∧
      (∀ m ∈ [chunkMsg "partial", updateWithError], m.has "result" = false) ∧
      (sendJSON (readyAgent [.msg (chunkMsg "partial"), .msg updateWithError]).stdin).1 = true ∧
      (ChatACP (readyAgent [.msg (chunkMsg "partial"), .msg updateWithError]) "hi").err = none ∧
      (ChatACP (readyAgent [.msg (chunkMsg "partial"), .msg updateWithError]) "hi").text
        = "partial" :=
  ⟨rfl, by decide, by decide, rfl, by decide⟩

/-- C3 at the chunks `"Hello"`, `", "`, `"world"` interleaved with a notification of another
kind and followed by end-of-input: the result is `"Hello, world"`, without error. -/
theorem ChatACP_eof_returns_aggregate_witness :
    (ChatACP (readyAgent (helloChunks.map Line.msg)) "hi").text = "Hello, world" ∧
      (ChatACP (readyAgent (helloChunks.map Line.msg)) "hi").err = none := by
  have h := ChatACP_eof_returns_aggregate (readyAgent (helloChunks.map Line.msg)) "hi"
    helloChunks (by decide) (by simp [readyAgent]) (by decide)
  exact ⟨h.1.trans (by decide), h.2⟩

/-! ## The fallback invoker -/

/-- A successful run whose output `json.Unmarshal` accepts returns the probed field. -/
theorem ChatSimple_of_parsed (a : AgentWrapper) (prompt : String) (run : RunResult)
    (r : SimpleResult) (hrun : run.failed = false) (hparse : jsonUnmarshal run.stdout = some r) :
    (ChatSimple a prompt run).text = pickResponse r run.stdout ∧
      (ChatSimple a prompt run).err = none := by
  simp [ChatSimple, hrun, hparse]

/-- C4: for every captured output of a successful one-shot invocation that parses (into the
struct `r`), `ChatSimple` returns without error the first field found in the order
`response`, `text`, `content` (found: not empty), then the text of the first part of the
first candidate's content (found: the part exists); an earlier field wins over every later
one.  The four documents of the specification yield `"A"`, `"B"`, `"C"` and `"D"`. -/
theorem ChatSimple_probes_in_order :
    (∀ (a : AgentWrapper) (prompt : String) (run : RunResult) (r : SimpleResult),
      run.failed = false → jsonUnmarshal run.stdout = some r →
        (ChatSimple a prompt run).err = none ∧
        (r.Response ≠ "" → (ChatSimple a prompt run).text = r.Response) ∧
        (r.Response = "" → r.Text ≠ "" → (ChatSimple a prompt run).text = r.Text) ∧
        (r.Response = "" → r.Text = "" → r.Content ≠ "" →
          (ChatSimple a prompt run).text = r.Content) ∧
        (r.Response = "" → r.Text = "" → r.Content = "" →
          ∀ p, firstPart r = some p → (ChatSimple a prompt run).text = p.Text)) ∧
    (∀ (a : AgentWrapper) (prompt : String),
      (ChatSimple a prompt (printed docResponse)).text = "A" ∧
      (ChatSimple a prompt (printed docText)).text = "B" ∧
      (ChatSimple a prompt (printed docContent)).text = "C" ∧
      (ChatSimple a prompt (printed docCandidates)).text = "D") := by
  refine ⟨?_, ?_⟩
  · intro a prompt run r hrun hparse
    obtain ⟨ht, he⟩ := ChatSimple_of_parsed a prompt run r hrun hparse
    refine ⟨he, ?_, ?_, ?_, ?_⟩
    · intro h1
      rw [ht]; simp [pickResponse, h1]
    · intro h1 h2
      rw [ht]; simp [pickResponse, h1, h2]
    · intro h1 h2 h3
      rw [ht]; simp [pickResponse, h1, h2, h3]
    · intro h1 h2 h3 p hp
      rw [ht]
      cases hc : r.Candidates with
      | nil => simp [firstPart, hc] at hp
      | cons c cs =>
        cases hps : c.Content.Parts with
        | nil => simp [firstPart, hc, hps] at hp
        | cons q qs =>
          have : q = p := by simpa [firstPart, hc, hps] using hp
          simp [pickResponse, h1, h2, h3, hc, hps, this]
  · intro a prompt
    have hA : jsonUnmarshal docResponse = some ⟨"A", "", "", []⟩ := by decide
    have hB : jsonUnmarshal docText = some ⟨"", "B", "", []⟩ := by decide
    have hC : jsonUnmarshal docContent = some ⟨"", "", "C", []⟩ := by decide
    have hD : jsonUnmarshal docCandidates
        = some ⟨"", "", "", [⟨⟨[⟨"D"⟩]⟩⟩]⟩ := by decide
    refine ⟨?_, ?_, ?_, ?_⟩
    · rw [(ChatSimple_of_parsed a prompt _ _ rfl hA).1]; decide
    · rw [(ChatSimple_of_parsed a prompt _ _ rfl hB).1]; decide
    · rw [(ChatSimple_of_parsed a prompt _ _ rfl hC).1]; decide
    · rw [(ChatSimple_of_parsed a prompt _ _ rfl hD).1]; decide

/-- C4 at a document carrying both `response` and `text`, on a fresh bridge: the earlier
field `response` wins. -/
theorem ChatSimple_probes_in_order_witness :
    (ChatSimple NewAgentWrapper "hi" (printed docTextAndResponse)).text = "A" :=
  (ChatSimple_probes_in_order.1 NewAgentWrapper "hi"
    (printed docTextAndResponse) ⟨"A", "B", "", []⟩ rfl (by decide)).2.1
    (by decide)

/-- C5, as amended: for every captured output of a successful one-shot invocation, if the
output fails to parse, or parses with empty `response`, `text` and `content` and without a
first content part in the first candidate, `ChatSimple` returns without error the raw
output with surrounding whitespace trimmed. -/
theorem ChatSimple_falls_back_to_trimmed (a : AgentWrapper) (prompt : String)
    (run : RunResult) (hrun : run.failed = false)
    (h : jsonUnmarshal run.stdout = none ∨
      ∃ r, jsonUnmarshal run.stdout = some r ∧ r.Response = "" ∧ r.Text = "" ∧
        r.Content = "" ∧ firstPart r = none) :
    (ChatSimple a prompt run).text = TrimSpace run.stdout ∧
      (ChatSimple a prompt run).err = none := by
  rcases h with h | ⟨r, hparse, h1, h2, h3, h4⟩
  · simp [ChatSimple, hrun, h]
  · obtain ⟨ht, he⟩ := ChatSimple_of_parsed a prompt run r hrun hparse
    refine ⟨?_, he⟩
    rw [ht]
    cases hc : r.Candidates with
    | nil => simp [pickResponse, h1, h2, h3, hc]
    | cons c cs =>
      cases hps : c.Content.Parts with
      | nil => simp [pickResponse, h1, h2, h3, hc, hps]
      | cons q qs => simp [firstPart, hc, hps] at h4

/-- C5 at the unparsable output `"plain text  "`: the result is `"plain text"`. -/
theorem ChatSimple_falls_back_to_trimmed_witness :
    (ChatSimple NewAgentWrapper "hi" (printed "plain text  ")).text = "plain text" ∧
      (ChatSimple NewAgentWrapper "hi" (printed "plain text  ")).err = none := by
  have h := ChatSimple_falls_back_to_trimmed NewAgentWrapper "hi" (printed "plain text  ") rfl
    (Or.inl (by decide))
  exact ⟨h.1.trans (by decide), h.2⟩

/-- C5 as stated fails: the output `{"candidates":[{"content":{"parts":[{}]}}]}` parses, has
no top-level `response`, `text` or `content` and no text in the first part of its first
candidate, yet `ChatSimple` returns the empty string, not the trimmed output. -/
theorem ChatSimple_empty_part_counterexample :
    parseJSON docEmptyPart
        = some (.obj [("candidates", .arr [.obj [("content", .obj [("parts", .arr [.obj []])])]])]) ∧
      jsonUnmarshal docEmptyPart = some ⟨"", "", "", [⟨⟨[⟨""⟩]⟩⟩]⟩ ∧
      (ChatSimple NewAgentWrapper "hi" (printed docEmptyPart)).err = none ∧
      (ChatSimple NewAgentWrapper "hi" (printed docEmptyPart)).text = "" ∧
      TrimSpace docEmptyPart = docEmptyPart ∧
      (ChatSimple NewAgentWrapper "hi" (printed docEmptyPart)).text ≠ TrimSpace docEmptyPart :=
  ⟨rfl, by decide, rfl, by decide, by decide, by decide⟩

/-! ## The handshake -/

/-- The handshake leaves the process handle, the mode flag and the model alone, sends one
to three messages and nothing else, and advances the request counter by one or two. -/
theorem initializeACP_frame (b : AgentWrapper) (cwd : String) :
    (initializeACP b cwd).agent.cmd = b.cmd ∧
      (initializeACP b cwd).agent.useACP = b.useACP ∧
      (initializeACP b cwd).agent.model = b.model ∧
      b.reqID + 1 ≤ (initializeACP b cwd).agent.reqID ∧
      (initializeACP b cwd).agent.reqID ≤ b.reqID + 2 ∧
      ∀ e ∈ (initializeACP b cwd).effects, ∃ v, e = Effect.send v := by
  unfold initializeACP
  simp only
  repeat' split
  all_goals (simp <;> omega)

/-- The two nested type assertions of the handshake read `result.sessionId`. -/
theorem extractSessionID_eq (r : Msg) :
    extractSessionID r = asString (fieldAt (r.get "result") "sessionId") := by
  unfold extractSessionID fieldAt
  cases asMap (r.get "result") <;> simp

/-- The handshake on a bridge without session id, whose pipes behave as `env` says, succeeds
exactly when the specified condition holds, and then stores the specified session id; when
it fails the session id stays empty. -/
theorem initializeACP_spec (b : AgentWrapper) (env : StartEnv) (hsid : b.sessionID = "")
    (hin : b.stdin = env.stdin) (hout : b.reader = env.stdout) :
    (∀ s, handshakeSessionID env = some s →
      (initializeACP b env.cwd).err = none ∧ (initializeACP b env.cwd).agent.sessionID = s) ∧
    (handshakeSessionID env = none →
      (initializeACP b env.cwd).err ≠ none ∧ (initializeACP b env.cwd).agent.sessionID = "") := by
  have hopt : ∀ o : Option JSON, o = none ∨ ∃ e, o = some e := by
    intro o; cases o <;> simp
  unfold initializeACP handshakeSessionID
  rw [hin, hout]
  clear hin hout
  rcases env.stdout with _ | ⟨l1, _ | ⟨l2, rest⟩⟩
  · rcases env.stdin with _ | ⟨_ | _, _ | ⟨_ | _, _ | ⟨_ | _, w⟩⟩⟩ <;>
      simp [sendJSON, readJSON, decodeLine, hsid]
  · rcases l1 with r1 | _ | _
    · rcases hopt (Msg.get r1 "error") with h1 | ⟨e1, h1⟩ <;>
        rcases env.stdin with _ | ⟨_ | _, _ | ⟨_ | _, _ | ⟨_ | _, w⟩⟩⟩ <;>
        simp [sendJSON, readJSON, decodeLine, hsid, h1]
    · rcases env.stdin with _ | ⟨_ | _, _ | ⟨_ | _, _ | ⟨_ | _, w⟩⟩⟩ <;>
        simp [sendJSON, readJSON, decodeLine, hsid]
    · rcases env.stdin with _ | ⟨_ | _, _ | ⟨_ | _, _ | ⟨_ | _, w⟩⟩⟩ <;>
        simp [sendJSON, readJSON, decodeLine, hsid]
  · rcases l1 with r1 | _ | _
    · rcases l2 with r2 | _ | _
      · rcases hopt (Msg.get r1 "error") with h1 | ⟨e1, h1⟩ <;>
          rcases hopt (Msg.get r2 "error") with h2 | ⟨e2, h2⟩ <;>
          rcases env.stdin with _ | ⟨_ | _, _ | ⟨_ | _, _ | ⟨_ | _, w⟩⟩⟩ <;>
          cases h3 : asString (fieldAt (r2.get "result") "sessionId") <;>
          simp_all [sendJSON, readJSON, decodeLine, extractSessionID_eq, Msg.has]
      · rcases hopt (Msg.get r1 "error") with h1 | ⟨e1, h1⟩ <;>
          rcases env.stdin with _ | ⟨_ | _, _ | ⟨_ | _, _ | ⟨_ | _, w⟩⟩⟩ <;>
          simp [sendJSON, readJSON, decodeLine, hsid, h1]
      · rcases hopt (Msg.get r1 "error") with h1 | ⟨e1, h1⟩ <;>
          rcases env.stdin with _ | ⟨_ | _, _ | ⟨_ | _, _ | ⟨_ | _, w⟩⟩⟩ <;>
          simp [sendJSON, readJSON, decodeLine, hsid, h1]
    · rcases env.stdin with _ | ⟨_ | _, _ | ⟨_ | _, _ | ⟨_ | _, w⟩⟩⟩ <;>
        simp [sendJSON, readJSON, decodeLine, hsid]
    · rcases env.stdin with _ | ⟨_ | _, _ | ⟨_ | _, _ | ⟨_ | _, w⟩⟩⟩ <;>
        simp [sendJSON, readJSON, decodeLine, hsid]

/-- `Start` on a bridge in ACP mode, with both pipes wired and the process started: what is
left is the handshake and the reaction to its result. -/
theorem Start_spawned (a : AgentWrapper) (model : String) (env : StartEnv) (pid : Nat)
    (hacp : a.useACP = true) (hin : env.stdinPipe = true) (hout : env.stdoutPipe = true)
    (hstart : env.start = some pid) :
    Start a model env =
      match (initializeACP (spawned a model env pid) env.cwd).err with
      | some _ =>
        { agent := { (initializeACP (spawned a model env pid) env.cwd).agent with
            cmd := none, useACP := false },
          err := none,
          effects := killExisting a ++ (.spawn (acpArgs model) ::
            (initializeACP (spawned a model env pid) env.cwd).effects ++ [.kill pid, .wait pid]) }
      | none =>
        { agent := (initializeACP (spawned a model env pid) env.cwd).agent,
          err := none,
          effects := killExisting a ++ (.spawn (acpArgs model) ::
            (initializeACP (spawned a model env pid) env.cwd).effects) } := by
  cases h : (initializeACP (spawned a model env pid) env.cwd).err <;>
    simp_all [Start, startACP, spawned]

/-- The two ends of the handshake after a successful spawn: no error is returned, `Ready`
with `s` holds exactly when the specified condition yields `s`, and `Degraded` holds when it
yields nothing. -/
theorem Start_after_spawn (a : AgentWrapper) (model : String) (env : StartEnv)
    (pid : Nat) (hacp : a.useACP = true) (hin : env.stdinPipe = true)
    (hout : env.stdoutPipe = true) (hstart : env.start = some pid) :
    (Start a model env).err = none ∧
      (∀ s, Ready (Start a model env) model pid s ↔ handshakeSessionID env = some s) ∧
      (handshakeSessionID env = none → Degraded (Start a model env) pid) := by
  have hS := Start_spawned a model env pid hacp hin hout hstart
  obtain ⟨hcmd, huse, -, -, -, -⟩ := initializeACP_frame (spawned a model env pid) env.cwd
  obtain ⟨hok, hfail⟩ := initializeACP_spec (spawned a model env pid) env rfl rfl rfl
  cases hh : handshakeSessionID env with
  | none =>
    obtain ⟨herr, hsid⟩ := hfail hh
    cases he : (initializeACP (spawned a model env pid) env.cwd).err with
    | none => exact absurd he herr
    | some e =>
      rw [he] at hS
      simp only at hS
      refine ⟨by rw [hS], ?_, fun _ => ?_⟩
      · intro s
        constructor
        · intro hr
          have := hr.1
          rw [hS] at this
          simp at this
        · intro h
          simp at h
      · rw [hS]
        refine ⟨⟨killExisting a ++ (.spawn (acpArgs model) ::
          (initializeACP (spawned a model env pid) env.cwd).effects), by simp⟩, rfl, rfl, ?_, ?_, ?_⟩
        · simp [GetMode]
        · simp [IsRunning]
        · simpa using hsid
  | some s =>
    obtain ⟨herr, hsid⟩ := hok s hh
    rw [herr] at hS
    simp only at hS
    have hne : s ≠ "" := by
      intro h0
      unfold handshakeSessionID at hh
      split at hh
      · split at hh
        · simp at hh
        · split at hh
          · split at hh
            · simp at hh
            · simp only [Option.some.injEq] at hh
              simp_all
          · simp at hh
      · simp at hh
    have hc : (Start a model env).agent.cmd
        = some { Args := acpArgs model, Process := some ⟨pid⟩ } := by
      rw [hS, hcmd]; rfl
    have hu : (Start a model env).agent.useACP = true := by
      rw [hS, huse]; exact hacp
    have hready : Ready (Start a model env) model pid s := by
      refine ⟨hu, ?_, ?_, hc, ?_, hne⟩
      · simp [GetMode, hu, hc]
      · simp [IsRunning, hasProcess, hu, hc]
      · rw [hS]; exact hsid
    refine ⟨by rw [hS], ?_, fun h => by simp at h⟩
    intro t
    constructor
    · intro hr
      have h1 : (Start a model env).agent.sessionID = t := hr.2.2.2.2.1
      have h2 : (Start a model env).agent.sessionID = s := hready.2.2.2.2.1
      rw [← h1, h2]
    · intro h
      have : s = t := by simpa using h
      exact this ▸ hready

/-- C6: after a successful spawn (bridge in ACP mode, pipes wired), `Start` returns no error
and the handshake ends in `Ready` with session id `s` if and only if all three sends
succeed, both responses are read, neither carries an `error` field and the second has
`result.sessionId` equal to the non-empty string `s`; in every other case it ends
`Degraded`: process killed and waited for, handle cleared, fallback mode, no session id. -/
theorem Start_handshake_ready_iff (a : AgentWrapper) (model : String) (env : StartEnv)
    (pid : Nat) (hacp : a.useACP = true) (hin : env.stdinPipe = true)
    (hout : env.stdoutPipe = true) (hstart : env.start = some pid) :
    (Start a model env).err = none ∧
      (∀ s, Ready (Start a model env) model pid s ↔ handshakeSessionID env = some s) ∧
      (handshakeSessionID env = none → Degraded (Start a model env) pid) :=
  Start_after_spawn a model env pid hacp hin hout hstart

/-- C6 at an environment in which the process completes the handshake with session id
`"sess-1"`: a fresh bridge ends `Ready` with that id. -/
theorem Start_handshake_ready_iff_witness :
    Ready (Start NewAgentWrapper "m" goodEnv) "m" 7 "sess-1" :=
  ((Start_handshake_ready_iff NewAgentWrapper "m" goodEnv 7 rfl rfl rfl rfl).2.1 "sess-1").2
    (by decide)

/-! ## The mode selector -/

/-- `Chat` leaves the process handle, the mode flag, the model and the session id alone. -/
theorem Chat_frame (a : AgentWrapper) (prompt : String) (run : RunResult) :
    (Chat a prompt run).agent.cmd = a.cmd ∧ (Chat a prompt run).agent.useACP = a.useACP ∧
      (Chat a prompt run).agent.model = a.model ∧
      (Chat a prompt run).agent.sessionID = a.sessionID := by
  unfold Chat ChatACP ChatSimple
  simp only
  repeat' split
  all_goals simp

/-- On a bridge in fallback mode `Chat` is `ChatSimple`. -/
theorem Chat_of_fallback (a : AgentWrapper) (prompt : String) (run : RunResult)
    (h : a.useACP = false) : Chat a prompt run = ChatSimple a prompt run := by
  simp [Chat, h]

/-- `ChatSimple` performs exactly one external action, the one-shot run. -/
theorem ChatSimple_effects (a : AgentWrapper) (prompt : String) (run : RunResult) :
    (ChatSimple a prompt run).effects = [.run (simpleArgs prompt a.model)] := by
  unfold ChatSimple
  simp only
  repeat' split
  all_goals rfl

/-- `Start` on a bridge in fallback mode spawns nothing and stays in fallback mode. -/
theorem Start_of_fallback (a : AgentWrapper) (model : String) (env : StartEnv)
    (h : a.useACP = false) :
    Start a model env =
      { agent := { a with model := model, reqID := 0, sessionID := "" }, err := none,
        effects := killExisting a } := by
  simp [Start, h]

/-- No call brings a bridge in fallback mode back to ACP mode. -/
theorem step_fallback (a : AgentWrapper) (op : Op) (h : a.useACP = false) :
    (step a op).useACP = false := by
  cases op with
  | start model env => simp [step, Start_of_fallback a model env h, h]
  | stop => simpa [step, Stop] using h
  | chat prompt run => simpa [step, (Chat_frame a prompt run).2.1] using h
  | isRunning => exact h
  | getModel => exact h
  | getMode => exact h

/-- Fallback mode persists through every sequence of calls. -/
theorem runOps_fallback (ops : List Op) (a : AgentWrapper) (h : a.useACP = false) :
    (runOps a ops).useACP = false := by
  induction ops generalizing a with
  | nil => exact h
  | cons op ops ih => exact ih (step a op) (step_fallback a op h)

/-- A `Start` whose spawn or handshake fails, the pipes being wired, leaves the bridge in
fallback mode. -/
theorem Start_degrades (a : AgentWrapper) (model : String) (env : StartEnv)
    (hin : env.stdinPipe = true) (hout : env.stdoutPipe = true)
    (hfail : env.start = none ∨ handshakeSessionID env = none) :
    (Start a model env).agent.useACP = false := by
  cases hacp : a.useACP with
  | false => simp [Start_of_fallback a model env hacp, hacp]
  | true =>
    cases hstart : env.start with
    | none => simp [Start, startACP, hacp, hin, hout, hstart]
    | some pid =>
      have hnone : handshakeSessionID env = none := by
        rcases hfail with h | h
        · simp [hstart] at h
        · exact h
      exact ((Start_after_spawn a model env pid hacp hin hout hstart).2.2 hnone).2.2.1

/-- C7: once a `Start` has failed to spawn the process or to complete the handshake (its
pipes wired), then after every subsequent sequence of calls (`Stop`, `Chat`, accessors, and
even further `Start`s) `IsRunning()` is false, `GetMode()` reports the fallback mode
`"simple"`, and every `Chat` is `ChatSimple`: its only external action is the one-shot run,
and nothing is sent to an agent process. -/
theorem degraded_bridge_stays_fallback (a : AgentWrapper) (model : String) (env : StartEnv)
    (ops : List Op) (hin : env.stdinPipe = true) (hout : env.stdoutPipe = true)
    (hfail : env.start = none ∨ handshakeSessionID env = none) :
    IsRunning (runOps (Start a model env).agent ops) = false ∧
      GetMode (runOps (Start a model env).agent ops) = "simple" ∧
      ∀ prompt run,
        Chat (runOps (Start a model env).agent ops) prompt run
          = ChatSimple (runOps (Start a model env).agent ops) prompt run ∧
        (Chat (runOps (Start a model env).agent ops) prompt run).effects
          = [.run (simpleArgs prompt (runOps (Start a model env).agent ops).model)] := by
  have h := runOps_fallback ops _ (Start_degrades a model env hin hout hfail)
  refine ⟨by simp [IsRunning, h], by simp [GetMode, h], fun prompt run => ?_⟩
  rw [Chat_of_fallback _ prompt run h]
  exact ⟨rfl, ChatSimple_effects _ prompt run⟩

/-- C7 at a fresh bridge whose process refuses `initialize`, followed by a chat, a stop and
a second `Start` in an environment where everything would succeed. -/
theorem degraded_bridge_stays_fallback_witness :
    IsRunning (runOps (Start NewAgentWrapper "m" refusingEnv).agent
        [.chat "hi" (printed docResponse), .stop, .start "m" goodEnv]) = false ∧
      GetMode (runOps (Start NewAgentWrapper "m" refusingEnv).agent
        [.chat "hi" (printed docResponse), .stop, .start "m" goodEnv]) = "simple" :=
  let h := degraded_bridge_stays_fallback NewAgentWrapper "m" refusingEnv
    [.chat "hi" (printed docResponse), .stop, .start "m" goodEnv] rfl rfl
    (Or.inr (by decide))
  ⟨h.1, h.2.1⟩

/-! ## Start -/

/-- `Start` on a bridge in ACP mode when a pipe cannot be wired or the process cannot be
started. -/
theorem Start_not_spawned (a : AgentWrapper) (model : String) (env : StartEnv)
    (hacp : a.useACP = true) :
    (env.stdinPipe = false →
      Start a model env =
        { agent :=
            { a with
              model := model, reqID := 0, sessionID := "", stdin := [],
              cmd := some { Args := acpArgs model, Process := none } },
          err := some .stdinPipe, effects := killExisting a ++ [] }) ∧
    (env.stdinPipe = true → env.stdoutPipe = false →
      Start a model env =
        { agent :=
            { a with
              model := model, reqID := 0, sessionID := "", stdin := env.stdin,
              cmd := some { Args := acpArgs model, Process := none } },
          err := some .stdoutPipe, effects := killExisting a ++ [] }) ∧
    (env.stdinPipe = true → env.stdoutPipe = true → env.start = none →
      Start a model env =
        { agent :=
            { a with
              model := model, reqID := 0, sessionID := "", stdin := env.stdin,
              reader := env.stdout, cmd := some { Args := acpArgs model, Process := none },
              useACP := false },
          err := none, effects := killExisting a ++ [.spawn (acpArgs model)] }) := by
  refine ⟨fun h1 => ?_, fun h1 h2 => ?_, fun h1 h2 h3 => ?_⟩
  · simp [Start, startACP, hacp, h1]
  · simp [Start, startACP, hacp, h1, h2]
  · simp [Start, startACP, hacp, h1, h2, h3]

/-- The error `Start` returns: a pipe that cannot be wired on a bridge in ACP mode, and
nothing else. -/
theorem Start_err (a : AgentWrapper) (model : String) (env : StartEnv) :
    (Start a model env).err =
      if a.useACP = true ∧ env.stdinPipe = false then some .stdinPipe
      else if a.useACP = true ∧ env.stdoutPipe = false then some .stdoutPipe
      else none := by
  cases hacp : a.useACP with
  | false => simp [Start_of_fallback a model env hacp]
  | true =>
    obtain ⟨h1, h2, h3⟩ := Start_not_spawned a model env hacp
    cases hin : env.stdinPipe with
    | false => simp [h1 hin]
    | true =>
      cases hout : env.stdoutPipe with
      | false => simp [h2 hin hout]
      | true =>
        cases hstart : env.start with
        | none => simp [h3 hin hout hstart]
        | some pid => simpa using (Start_after_spawn a model env pid hacp hin hout hstart).1

/-- C8, as amended: for every bridge state, every model and every outcome of process
spawning and the handshake, `Start` returns no error when both pipes are wired (or the
bridge is already in fallback mode), and a failed spawn or handshake is absorbed into a
downgrade to fallback mode; a pipe that cannot be wired on a bridge in ACP mode is returned
to the caller as an error. -/
theorem Start_error_only_from_pipes (a : AgentWrapper) (model : String) (env : StartEnv) :
    ((Start a model env).err =
      if a.useACP = true ∧ env.stdinPipe = false then some .stdinPipe
      else if a.useACP = true ∧ env.stdoutPipe = false then some .stdoutPipe
      else none) ∧
    (env.stdinPipe = true → env.stdoutPipe = true →
      (Start a model env).err = none ∧
      (env.start = none ∨ handshakeSessionID env = none →
        (Start a model env).agent.useACP = false ∧
          GetMode (Start a model env).agent = "simple")) := by
  refine ⟨Start_err a model env, fun hin hout => ⟨?_, fun hfail => ?_⟩⟩
  · rw [Start_err]; simp [hin, hout]
  · have h := Start_degrades a model env hin hout hfail
    exact ⟨h, by simp [GetMode, h]⟩

/-- C8 at a fresh bridge whose process refuses `initialize`: no error, fallback mode. -/
theorem Start_error_only_from_pipes_witness :
    (Start NewAgentWrapper "m" refusingEnv).err = none ∧
      GetMode (Start NewAgentWrapper "m" refusingEnv).agent = "simple" :=
  let h := (Start_error_only_from_pipes NewAgentWrapper "m" refusingEnv).2 rfl rfl
  ⟨h.1, (h.2 (Or.inr (by decide))).2⟩

/-- C8 as stated fails: on a fresh bridge, when the standard input pipe cannot be created,
`Start` returns an error to its caller, and the bridge is not downgraded. -/
theorem Start_pipe_failure_counterexample :
    (Start NewAgentWrapper "m" noPipeEnv).err = some .stdinPipe ∧
      (Start NewAgentWrapper "m" noPipeEnv).agent.useACP = true ∧
      GetMode (Start NewAgentWrapper "m" noPipeEnv).agent = "acp" := by
  decide

/-- The guarded `Kill` and `Wait` never start a process. -/
theorem spawn_not_mem_killExisting (a : AgentWrapper) (args : List String) :
    Effect.spawn args ∉ killExisting a := by
  unfold killExisting
  repeat' split
  all_goals simp

/-- C9, as amended: for every bridge state, `Start(model)` first terminates any existing
process, sets the model to `model` and resets the request counter (the handshake requests
are numbered from 1, so it ends between 0 and 2) and the session identifier (empty unless
the new handshake yields one); it attempts to spawn a process, with the command line
`gemini --experimental-acp --model <model>`, if and only if the bridge is still in ACP mode
and both pipes are wired; on a bridge in fallback mode it spawns nothing and the bridge
stays in fallback mode. -/
theorem Start_resets_and_spawns_only_in_ACP_mode (a : AgentWrapper) (model : String)
    (env : StartEnv) :
    (∀ args pid, a.cmd = some { Args := args, Process := some ⟨pid⟩ } →
      ∃ more, (Start a model env).effects = .kill pid :: .wait pid :: more) ∧
    (Start a model env).agent.model = model ∧
    (0 ≤ (Start a model env).agent.reqID ∧ (Start a model env).agent.reqID ≤ 2) ∧
    ((Start a model env).agent.sessionID = "" ∨
      handshakeSessionID env = some (Start a model env).agent.sessionID) ∧
    (∀ args, Effect.spawn args ∈ (Start a model env).effects ↔
      args = ["gemini", "--experimental-acp", "--model", model] ∧ a.useACP = true ∧
        env.stdinPipe = true ∧ env.stdoutPipe = true) ∧
    (a.useACP = false →
      (Start a model env).agent.useACP = false ∧ GetMode (Start a model env).agent = "simple" ∧
        IsRunning (Start a model env).agent = false) := by
  have hk : ∀ args pid, a.cmd = some { Args := args, Process := some ⟨pid⟩ } →
      killExisting a = [.kill pid, .wait pid] := by
    intro args pid h
    simp [killExisting, h]
  have hns := spawn_not_mem_killExisting a
  cases hacp : a.useACP with
  | false =>
    rw [Start_of_fallback a model env hacp]
    refine ⟨fun args pid h => ⟨[], by simp [hk args pid h]⟩, rfl, by simp, Or.inl rfl, ?_, ?_⟩
    · intro args
      simp [hns args]
    · intro _
      simp [GetMode, IsRunning, hacp]
  | true =>
    obtain ⟨h1, h2, h3⟩ := Start_not_spawned a model env hacp
    cases hin : env.stdinPipe with
    | false =>
      rw [h1 hin]
      refine ⟨fun args pid h => ⟨[], by simp [hk args pid h]⟩, rfl, by simp, Or.inl rfl, ?_, ?_⟩
      · intro args
        simp [hns args]
      · intro h; simp at h
    | true =>
      cases hout : env.stdoutPipe with
      | false =>
        rw [h2 hin hout]
        refine ⟨fun args pid h => ⟨[], by simp [hk args pid h]⟩, rfl, by simp, Or.inl rfl, ?_, ?_⟩
        · intro args
          simp [hns args]
        · intro h; simp at h
      | true =>
        cases hstart : env.start with
        | none =>
          rw [h3 hin hout hstart]
          refine ⟨fun args pid h => ⟨[.spawn (acpArgs model)], by simp [hk args pid h]⟩, rfl,
            by simp, Or.inl rfl, ?_, ?_⟩
          · intro args
            simp [hns args, acpArgs]
          · intro h; simp at h
        | some pid =>
          have hS := Start_spawned a model env pid hacp hin hout hstart
          obtain ⟨-, -, hmodel, hlo, hhi, hsend⟩ :=
            initializeACP_frame (spawned a model env pid) env.cwd
          obtain ⟨hok, hfail⟩ := initializeACP_spec (spawned a model env pid) env rfl rfl rfl
          have hnosp : ∀ args,
              Effect.spawn args ∉ (initializeACP (spawned a model env pid) env.cwd).effects := by
            intro args hmem
            obtain ⟨v, hv⟩ := hsend _ hmem
            cases hv
          have hreq : (0 : Int) ≤ (initializeACP (spawned a model env pid) env.cwd).agent.reqID ∧
              (initializeACP (spawned a model env pid) env.cwd).agent.reqID ≤ 2 := by
            have h0 : (spawned a model env pid).reqID = 0 := rfl
            rw [h0] at hlo hhi
            constructor <;> omega
          have hsid : (initializeACP (spawned a model env pid) env.cwd).agent.sessionID = "" ∨
              handshakeSessionID env
                = some (initializeACP (spawned a model env pid) env.cwd).agent.sessionID := by
            cases hh : handshakeSessionID env with
            | none => exact Or.inl (hfail hh).2
            | some s => exact Or.inr (by rw [(hok s hh).2])
          cases he : (initializeACP (spawned a model env pid) env.cwd).err with
          | none =>
            rw [he] at hS
            simp only at hS
            rw [hS]
            refine ⟨fun args p h => ⟨.spawn (acpArgs model) ::
              (initializeACP (spawned a model env pid) env.cwd).effects, by simp [hk args p h]⟩,
              hmodel, hreq, hsid, ?_, ?_⟩
            · intro args
              simp [hns args, hnosp args, acpArgs]
            · intro h; simp at h
          | some e =>
            rw [he] at hS
            simp only at hS
            rw [hS]
            refine ⟨fun args p h => ⟨.spawn (acpArgs model) ::
              (initializeACP (spawned a model env pid) env.cwd).effects ++ [.kill pid, .wait pid],
              by simp [hk args p h]⟩, hmodel, hreq, hsid, ?_, ?_⟩
            · intro args
              simp [hns args, hnosp args, acpArgs]
            · intro h; simp at h

/-- C9 as stated fails: on a bridge degraded by an earlier `Start`, a `Start` in an
environment where everything would succeed (it takes a fresh bridge to interactive mode)
performs no external action at all, so it spawns nothing, and the bridge stays in fallback
mode. -/
theorem Start_after_degrade_counterexample :
    GetMode (Start NewAgentWrapper "m" goodEnv).agent = "acp" ∧
      GetMode degradedAgent = "simple" ∧
      (Start degradedAgent "m" goodEnv).effects.isEmpty = true ∧
      GetMode (Start degradedAgent "m" goodEnv).agent = "simple" ∧
      IsRunning (Start degradedAgent "m" goodEnv).agent = false := by
  decide

/-! ## The session identifier -/

/-- After every `Start`, from any state, the session id is non-empty exactly when the
bridge is running. -/
theorem Start_sessionID_iff_running (a : AgentWrapper) (model : String) (env : StartEnv) :
    (Start a model env).agent.sessionID ≠ "" ↔ IsRunning (Start a model env).agent = true := by
  cases hacp : a.useACP with
  | false => simp [Start_of_fallback a model env hacp, IsRunning, hacp]
  | true =>
    obtain ⟨h1, h2, h3⟩ := Start_not_spawned a model env hacp
    cases hin : env.stdinPipe with
    | false => simp [h1 hin, IsRunning, hasProcess]
    | true =>
      cases hout : env.stdoutPipe with
      | false => simp [h2 hin hout, IsRunning, hasProcess]
      | true =>
        cases hstart : env.start with
        | none => simp [h3 hin hout hstart, IsRunning]
        | some pid =>
          obtain ⟨-, hready, hdeg⟩ := Start_after_spawn a model env pid hacp hin hout hstart
          cases hh : handshakeSessionID env with
          | none =>
            obtain ⟨-, -, -, -, hrun, hsid⟩ := hdeg hh
            simp [hrun, hsid]
          | some s =>
            obtain ⟨-, -, hrun, -, hsid, hne⟩ := (hready s).2 hh
            simp [hrun, hsid, hne]

/-- A property that every call preserves holds after every sequence of calls. -/
theorem runOps_induction (P : AgentWrapper → Prop) (Q : Op → Prop)
    (hstep : ∀ a op, Q op → P a → P (step a op)) (ops : List Op) (a : AgentWrapper)
    (hops : ∀ op ∈ ops, Q op) (ha : P a) : P (runOps a ops) := by
  induction ops generalizing a with
  | nil => exact ha
  | cons op ops ih =>
    exact ih (step a op) (fun o ho => hops o (List.mem_cons_of_mem _ ho))
      (hstep a op (hops op (List.mem_cons_self _ _)) ha)

/-- `Chat` does not change whether the bridge is running. -/
theorem Chat_IsRunning (a : AgentWrapper) (prompt : String) (run : RunResult) :
    IsRunning (Chat a prompt run).agent = IsRunning a := by
  obtain ⟨hc, hu, -, -⟩ := Chat_frame a prompt run
  simp [IsRunning, hasProcess, hc, hu]

/-- The bridge after two sequences of calls in a row. -/
theorem runOps_append (a : AgentWrapper) (xs ys : List Op) :
    runOps a (xs ++ ys) = runOps (runOps a xs) ys := by
  simp [runOps, List.foldl_append]

/-- A call other than `Start` leaves the session id alone. -/
theorem step_sessionID (a : AgentWrapper) (op : Op) (h : op.isStart = false) :
    (step a op).sessionID = a.sessionID := by
  cases op with
  | start model env => simp [Op.isStart] at h
  | stop => rfl
  | chat prompt run => exact (Chat_frame a prompt run).2.2.2
  | isRunning => rfl
  | getModel => rfl
  | getMode => rfl

/-- After a call other than `Start` the bridge is running exactly when it was running and
the call is not `Stop`. -/
theorem step_IsRunning (a : AgentWrapper) (op : Op) (h : op.isStart = false) :
    IsRunning (step a op) = (IsRunning a && !op.isStop) := by
  cases op with
  | start model env => simp [Op.isStart] at h
  | stop => simp [step, Stop, IsRunning, hasProcess, Op.isStop]
  | chat prompt run => simp [step, Chat_IsRunning, Op.isStop]
  | isRunning => simp [step, Op.isStop]
  | getModel => simp [step, Op.isStop]
  | getMode => simp [step, Op.isStop]

/-- Calls other than `Start` keep the session id, and keep the bridge running exactly when
no `Stop` is among them. -/
theorem runOps_without_start (post : List Op) (a : AgentWrapper)
    (h : ∀ op ∈ post, op.isStart = false) :
    (runOps a post).sessionID = a.sessionID ∧
      IsRunning (runOps a post) = (IsRunning a && !post.any Op.isStop) := by
  induction post generalizing a with
  | nil => simp [runOps]
  | cons op post ih =>
    have hop := h op (List.mem_cons_self _ _)
    obtain ⟨h1, h2⟩ := ih (step a op) (fun o ho => h o (List.mem_cons_of_mem _ ho))
    constructor
    · show (runOps (step a op) post).sessionID = a.sessionID
      rw [h1, step_sessionID a op hop]
    · show IsRunning (runOps (step a op) post) = _
      rw [h2, step_IsRunning a op hop]
      cases hr : IsRunning a <;> cases hs : op.isStop <;> simp [List.any_cons, hs]

/-- A sequence of calls holds no `Start`, or splits at its last `Start`. -/
theorem last_start (ops : List Op) :
    (∀ op ∈ ops, op.isStart = false) ∨
      ∃ pre model env post, ops = pre ++ Op.start model env :: post ∧
        ∀ op ∈ post, op.isStart = false := by
  induction ops with
  | nil => exact Or.inl (by simp)
  | cons op ops ih =>
    rcases ih with h | ⟨pre, model, env, post, heq, hpost⟩
    · cases hop : op.isStart with
      | false =>
        refine Or.inl fun o ho => ?_
        rcases List.mem_cons.1 ho with rfl | ho
        · exact hop
        · exact h o ho
      | true =>
        cases op with
        | start model env => exact Or.inr ⟨[], model, env, ops, rfl, h⟩
        | stop => simp [Op.isStart] at hop
        | chat prompt run => simp [Op.isStart] at hop
        | isRunning => simp [Op.isStart] at hop
        | getModel => simp [Op.isStart] at hop
        | getMode => simp [Op.isStart] at hop
    · exact Or.inr ⟨op :: pre, model, env, post, by simp [heq], hpost⟩

/-- C10, as amended: in every state reachable from `NewAgentWrapper()` by any sequence of
`Start`, `Stop` and `Chat` calls, `IsRunning()` true implies a non-empty `sessionID`, and
`sessionID` is non-empty if and only if `IsRunning()` is true except in exactly the states
in which the last `Start` ended running and a `Stop` has followed it.  So the equivalence
holds before any `Start` and whenever no `Stop` follows the last `Start`; and every `Start`
that does not end running, a degrading one in particular, leaves `sessionID` empty. -/
theorem sessionID_iff_running_unless_stopped (ops : List Op) :
    (IsRunning (runOps NewAgentWrapper ops) = true → (runOps NewAgentWrapper ops).sessionID ≠ "") ∧
    ((∀ op ∈ ops, op.isStart = false) ∨
      ∃ pre model env post, ops = pre ++ Op.start model env :: post ∧
        ∀ op ∈ post, op.isStart = false) ∧
    ((∀ op ∈ ops, op.isStart = false) →
      (runOps NewAgentWrapper ops).sessionID = "" ∧
        IsRunning (runOps NewAgentWrapper ops) = false) ∧
    (∀ pre model env post, ops = pre ++ Op.start model env :: post →
      (∀ op ∈ post, op.isStart = false) →
      (((runOps NewAgentWrapper ops).sessionID ≠ "" ↔
          IsRunning (runOps NewAgentWrapper ops) = true) ↔
        ¬ (IsRunning (Start (runOps NewAgentWrapper pre) model env).agent = true ∧
          ∃ op ∈ post, op.isStop = true))) ∧
    (∀ pre model env post, ops = pre ++ Op.start model env :: post →
      (∀ op ∈ post, op.isStop = false) →
      ((runOps NewAgentWrapper ops).sessionID ≠ "" ↔
        IsRunning (runOps NewAgentWrapper ops) = true)) ∧
    (∀ a model env, IsRunning (Start a model env).agent = false →
      (Start a model env).agent.sessionID = "") := by
  refine ⟨?_, last_start ops, ?_, ?_, ?_, ?_⟩
  · refine runOps_induction (fun b => IsRunning b = true → b.sessionID ≠ "") (fun _ => True)
      ?_ ops NewAgentWrapper (fun _ _ => trivial)
      (by simp [IsRunning, hasProcess, NewAgentWrapper])
    intro a op _ ha
    cases op with
    | start model env => exact (Start_sessionID_iff_running a model env).2
    | stop => simp [step, Stop, IsRunning, hasProcess]
    | chat prompt run =>
      simp only [step, Chat_IsRunning, (Chat_frame a prompt run).2.2.2]
      exact ha
    | isRunning => exact ha
    | getModel => exact ha
    | getMode => exact ha
  · intro h
    obtain ⟨h1, h2⟩ := runOps_without_start ops NewAgentWrapper h
    refine ⟨by rw [h1]; rfl, ?_⟩
    rw [h2]
    simp [IsRunning, hasProcess, NewAgentWrapper]
  · intro pre model env post heq hpost
    have hrun : runOps NewAgentWrapper ops
        = runOps (Start (runOps NewAgentWrapper pre) model env).agent post := by
      rw [heq, runOps_append]; rfl
    obtain ⟨h1, h2⟩ := runOps_without_start post
      (Start (runOps NewAgentWrapper pre) model env).agent hpost
    have hS := Start_sessionID_iff_running (runOps NewAgentWrapper pre) model env
    rw [hrun, h1, h2, hS]
    cases hr : IsRunning (Start (runOps NewAgentWrapper pre) model env).agent <;>
      cases hany : post.any Op.isStop <;> simp_all
  · intro pre model env post heq hpost
    have hrun : runOps NewAgentWrapper ops
        = runOps (Start (runOps NewAgentWrapper pre) model env).agent post := by
      rw [heq, runOps_append]; rfl
    rw [hrun]
    refine runOps_induction (fun b => b.sessionID ≠ "" ↔ IsRunning b = true)
      (fun op => op.isStop = false) ?_ post _ hpost
      (Start_sessionID_iff_running (runOps NewAgentWrapper pre) model env)
    intro a op hop ha
    cases op with
    | start model env => exact Start_sessionID_iff_running a model env
    | stop => simp [Op.isStop] at hop
    | chat prompt run =>
      simp only [step, Chat_IsRunning, (Chat_frame a prompt run).2.2.2]
      exact ha
    | isRunning => exact ha
    | getModel => exact ha
    | getMode => exact ha
  · intro a model env h
    by_contra hne
    have := (Start_sessionID_iff_running a model env).1 hne
    simp [h] at this

/-- C10 at a `Start`, a `Stop`, a second `Start` and a `Chat`, everything succeeding: no
`Stop` follows the last `Start`, and the session id is set while the bridge is running. -/
theorem sessionID_iff_running_unless_stopped_witness :
    ((runOps NewAgentWrapper [.start "m" goodEnv, .stop, .start "m" goodEnv,
        .chat "hi" (printed docResponse)]).sessionID ≠ "" ↔
      IsRunning (runOps NewAgentWrapper [.start "m" goodEnv, .stop, .start "m" goodEnv,
        .chat "hi" (printed docResponse)]) = true) ∧
    IsRunning (runOps NewAgentWrapper [.start "m" goodEnv, .stop, .start "m" goodEnv,
        .chat "hi" (printed docResponse)]) = true :=
  ⟨(sessionID_iff_running_unless_stopped [.start "m" goodEnv, .stop, .start "m" goodEnv,
      .chat "hi" (printed docResponse)]).2.2.2.2.1 [.start "m" goodEnv, .stop] "m" goodEnv
      [.chat "hi" (printed docResponse)] rfl (by decide), by decide⟩

/-- C10 as stated fails: after a successful `Start` followed by `Stop`, the session id is
still `"sess-1"` while `IsRunning()` is false and the mode is fallback. -/
theorem Stop_keeps_sessionID_counterexample :
    (runOps NewAgentWrapper [.start "m" goodEnv, .stop]).sessionID = "sess-1" ∧
      IsRunning (runOps NewAgentWrapper [.start "m" goodEnv, .stop]) = false ∧
      GetMode (runOps NewAgentWrapper [.start "m" goodEnv, .stop]) = "simple" := by
  decide

end Lloro
